import Mathlib

/-!
Shallow embedding of `src/api/src/context.rs` (the API `Context` of a
blockchain full node) and proofs about its operations.

Conventions of the embedding:
* `u64` values are `Nat`; where the Rust code performs `u64` arithmetic that
  can overflow, the result is reduced `% 2^64` (release-build wrapping
  semantics; overflow checks are disabled in release profiles).  Saturating
  operations (`saturating_sub`, `saturating_add`) are modelled explicitly;
  a Rust `as u16` cast is `% 2^16`.
* Collaborator calls (the `DbReader` trait object) are modelled as a record
  of response functions returning `Except String α` (Rust `Result`).
* Operations of `Context` itself return `Outcome α`, which is `Except`
  extended with a `panicked` case: the one place the Rust code can panic on
  collaborator data (the `[0]` index in
  `convert_into_transaction_on_chain_data`) is modelled as `Outcome.panicked`.
* External machinery that is not part of this file's source (the
  `aptos_api_types` conversions, the Move resource converter obtained via
  `as_converter`, and serde decoding of the `U64` JSON type) is modelled
  abstractly at its interface, faithful to the spec's description.
-/

namespace ApiContext

/-- Rust `u64` modulus. -/
def U64MOD : Nat := 2 ^ 64

/-- Rust `u64::MAX`. -/
def U64MAX : Nat := U64MOD - 1

/-- `a.saturating_add b` on `u64` values (both arguments `< 2^64`). -/
def u64SaturatingAdd (a b : Nat) : Nat := min (a + b) U64MAX

/-- A Move struct tag (`move_core_types::language_storage::StructTag`);
type parameters are empty for the block-metadata tag, modelled as a list of
opaque indices. -/
structure StructTag where
  address : Nat
  module : String
  name : String
  typeParams : List Nat
deriving DecidableEq

/-- `aptos_types::access_path::Path`: a code or resource path. -/
inductive MovePath where
  | code (module : Nat)
  | resource (tag : StructTag)
deriving DecidableEq

/-- An access path: an account address plus a typed path.  The Rust
`AccessPath` stores the path serialized; `get_path()` deserializes it, which
we model by storing the path directly. -/
structure AccessPath where
  address : Nat
  path : MovePath
deriving DecidableEq

/-- `AccessPath::get_path`. -/
def AccessPath.get_path (ap : AccessPath) : MovePath := ap.path

/-- `aptos_types::state_store::state_key::StateKey`. -/
inductive StateKey where
  | accessPath (ap : AccessPath)
  | tableItem (handle : Nat) (key : List Nat)
  | raw (bytes : List Nat)
deriving DecidableEq

/-- `aptos_types::write_set::WriteOp`. -/
inductive WriteOp where
  | deletion
  | value (v : List Nat)
deriving DecidableEq

/-- Modelled from the spec: a JSON value as produced by the external Move
resource converter; the api's `U64` numeric type deserializes from a JSON
value transporting a 64-bit unsigned integer, anything else fails. -/
inductive JsonValue where
  | u64 (n : Nat)
  | other
deriving DecidableEq

/-- Modelled from the spec: `serde_json::from_value::<U64>`, the
string-safe 64-bit decode of the external api-types crate.  Succeeds exactly
on JSON values carrying a 64-bit unsigned integer. -/
def fromValueU64 : JsonValue → Except String Nat
  | .u64 n => .ok n
  | .other => .error "invalid type for U64"

/-- A decoded Move resource: the field map of `MoveResource.data`
(`move_resource_viewer`), keyed by field identifier. -/
structure MoveResource where
  data : List (String × JsonValue)
deriving DecidableEq

/-- Modelled from the spec: the execution-state interpreter obtained from a
state view via `as_converter` — given a struct tag and the raw bytes of a
state write, decode them into a field-addressable resource. -/
def Resolver : Type := StructTag → List Nat → Except String MoveResource

/-- `BlockMetadata` transaction payload: carries its own hash (`id()`) and
`timestamp_usecs()`. -/
structure BlockMetadataTxn where
  id : Nat
  timestamp_usecs : Nat
deriving DecidableEq

/-- `aptos_types::transaction::Transaction` (the four variants of the
enum at this revision); payloads irrelevant to the claims are opaque. -/
inductive Transaction where
  | userTransaction (t : Nat)
  | genesisTransaction (w : Nat)
  | blockMetadata (b : BlockMetadataTxn)
  | stateCheckpoint (h : Nat)
deriving DecidableEq

/-- `TransactionWithProof`, restricted to the fields this file reads:
`version`, `transaction` and the proof's transaction info (opaque). -/
structure TransactionWithProof where
  version : Nat
  transaction : Transaction
  info : Nat
deriving DecidableEq

/-- A transaction output: the write set and the emitted events (gas and
status, discarded by `unpack()` here, are omitted). -/
structure TransactionOutput where
  write_set : List (StateKey × WriteOp)
  events : List Nat
deriving DecidableEq

/-- The proof part of `TransactionOutputListWithProof`: the list of
transaction infos (opaque). -/
structure TransactionInfoListWithProof where
  transaction_infos : List Nat
deriving DecidableEq

/-- `TransactionOutputListWithProof` as returned by
`DbReader::get_transaction_outputs`. -/
structure TransactionOutputListWithProof where
  first_transaction_output_version : Option Nat
  proof : TransactionInfoListWithProof
  transactions_and_outputs : List (Transaction × TransactionOutput)
deriving DecidableEq

/-- `aptos_api_types::TransactionOnChainData`: the materialized transaction
record (spec: TransactionRecord). -/
structure TransactionOnChainData where
  version : Nat
  transaction : Transaction
  info : Nat
  events : List Nat
  accumulator_root_hash : Nat
  changes : List (StateKey × WriteOp)
deriving DecidableEq

/-- An event as returned by `DbReader::get_events`: the payload together
with the version of the transaction that emitted it. -/
structure EventWithVersion where
  transaction_version : Nat
  event : Nat
deriving DecidableEq

/-- `storage_interface::Order` for event queries. -/
inductive Order where
  | ascending
  | descending
deriving DecidableEq

/-- `aptos_api_types::BlockInfo`; `num_transactions` is a `u16` in the
source, represented as a `Nat` already reduced `% 2^16` by the code that
builds it. -/
structure BlockInfo where
  block_height : Nat
  start_version : Nat
  end_version : Nat
  block_hash : Nat
  block_timestamp : Nat
  num_transactions : Nat
deriving DecidableEq

/-- Modelled from the spec: `aptos_api_types::LedgerInfo::new` packages the
chain id, the latest signed ledger header and the oldest retained version
into the ledger snapshot (spec: LedgerSnapshot). -/
structure LedgerSnapshotInfo where
  chain_id : Nat
  ledger_info_with_sigs : Nat
  oldest_ledger_version : Nat
deriving DecidableEq

/-- The result of a `Context` operation: Rust `Result` plus a distinguished
`panicked` outcome for a Rust panic (index out of bounds). -/
inductive Outcome (α : Type) where
  | ok (a : α)
  | err (e : String)
  | panicked
deriving DecidableEq

/-- `true` exactly on the `err` case (a returned `Result::Err`). -/
def Outcome.isErr {α : Type} : Outcome α → Bool
  | .err _ => true
  | _ => false

/-- The `DbReader` collaborator, as a record of response functions: one
field per trait method this file calls. -/
structure DbReader where
  get_first_txn_version : Except String (Option Nat)
  get_latest_ledger_info : Except String Nat
  get_block_boundaries : Nat → Nat → Except String (Nat × Nat)
  get_transaction_by_version : Nat → Nat → Bool → Except String TransactionWithProof
  get_transaction_by_hash : Nat → Nat → Bool → Except String (Option TransactionWithProof)
  get_account_transactions : Nat → Nat → Nat → Bool → Nat →
    Except String (List TransactionWithProof)
  get_transaction_outputs : Nat → Nat → Nat → Except String TransactionOutputListWithProof
  get_accumulator_root_hash : Nat → Except String Nat
  get_events : Nat → Nat → Order → Nat → Except String (List EventWithVersion)
  latest_state_checkpoint_view : Except String Resolver
  state_view_at_version : Option Nat → Except String Resolver

/-- The application `Context`: chain id plus the shared `DbReader` handle
(the mempool sender and node config play no part in the claims). -/
structure Context where
  chain_id : Nat
  db : DbReader

/-- `CORE_CODE_ADDRESS` (the reserved system address `0x1`). -/
def coreCodeAddress : Nat := 1

/-- The struct tag `0x1::block::BlockMetadata` built in `get_block_info`. -/
def blockMetadataType : StructTag :=
  { address := coreCodeAddress, module := "block", name := "BlockMetadata", typeParams := [] }

/-- `Context::move_resolver`: the resolver over the LATEST state checkpoint
view (`latest_state_checkpoint_view().map(into_move_resolver)`). -/
def Context.move_resolver (ctx : Context) : Except String Resolver :=
  ctx.db.latest_state_checkpoint_view

/-- `Context::get_accumulator_root_hash`. -/
def Context.get_accumulator_root_hash (ctx : Context) (version : Nat) : Except String Nat :=
  ctx.db.get_accumulator_root_hash version

/-- `end.saturating_sub(start).saturating_add(1) as u16`, the
`num_transactions` computation of `get_block_info` (Nat subtraction is
truncated, exactly `u64::saturating_sub`; the `as u16` cast truncates
`% 2^16`). -/
def numTransactions (start end_ : Nat) : Nat :=
  u64SaturatingAdd (end_ - start) 1 % 2 ^ 16

/-- `Context::convert_into_transaction_on_chain_data`: fetches the single
transaction output at the transaction's own version and indexes
`transactions_and_outputs[0]` — a Rust panic when that vector is empty —
then attaches the accumulator root hash.  The final record assembly is the
`aptos_api_types` conversion, modelled from the spec: transaction and proof
from the proved transaction, events and write-set from the output, plus the
accumulator root. -/
def Context.convert_into_transaction_on_chain_data (ctx : Context)
    (txn : TransactionWithProof) : Outcome TransactionOnChainData :=
  match ctx.db.get_transaction_outputs txn.version 1 txn.version with
  | .error e => .err e
  | .ok data =>
    match data.transactions_and_outputs with
    | [] => .panicked
    | (_, txn_output) :: _ =>
      match ctx.db.get_accumulator_root_hash txn.version with
      | .error e => .err e
      | .ok h =>
        .ok { version := txn.version, transaction := txn.transaction, info := txn.info,
              events := txn_output.events, accumulator_root_hash := h,
              changes := txn_output.write_set }

/-- `Context::get_transaction_by_version` (the public operation): fetch the
proved transaction from the reader, then materialize it. -/
def Context.get_transaction_by_version (ctx : Context) (version ledger_version : Nat) :
    Outcome TransactionOnChainData :=
  match ctx.db.get_transaction_by_version version ledger_version true with
  | .error e => .err e
  | .ok twp => ctx.convert_into_transaction_on_chain_data twp

/-- `Context::get_transaction_by_hash`: look the transaction up by hash —
absence is `ok none`, not an error — materializing it when found
(`map` then `transpose` over the optional result). -/
def Context.get_transaction_by_hash (ctx : Context) (hash ledger_version : Nat) :
    Outcome (Option TransactionOnChainData) :=
  match ctx.db.get_transaction_by_hash hash ledger_version true with
  | .error e => .err e
  | .ok none => .ok none
  | .ok (some t) =>
    match ctx.convert_into_transaction_on_chain_data t with
    | .err e => .err e
    | .panicked => .panicked
    | .ok r => .ok (some r)

/-- The `collect::<Result<Vec<_>>>` fold of `get_account_transactions`:
materialize each proved transaction in order, stopping at the first reader
error; a panic inside any materialization propagates. -/
def Context.convertAll (ctx : Context) : List TransactionWithProof →
    Outcome (List TransactionOnChainData)
  | [] => .ok []
  | t :: rest =>
    match ctx.convert_into_transaction_on_chain_data t with
    | .err e => .err e
    | .panicked => .panicked
    | .ok r =>
      match ctx.convertAll rest with
      | .err e => .err e
      | .panicked => .panicked
      | .ok rs => .ok (r :: rs)

/-- `Context::get_account_transactions`: the sequence-ordered account fetch
is delegated to the reader, followed by the same materialization per
result. -/
def Context.get_account_transactions (ctx : Context)
    (address start_seq_number limit ledger_version : Nat) :
    Outcome (List TransactionOnChainData) :=
  match ctx.db.get_account_transactions address start_seq_number limit true ledger_version with
  | .error e => .err e
  | .ok txns => ctx.convertAll txns

/-- The `find_map` closure of `get_block_info`: scan the write-set for a
resource write at the reserved address with tag `0x1::block::BlockMetadata`,
decode it through the converter, and read its `height` field as a `U64`.
Every failing step makes the scan continue with the next change. -/
def findBlockHeight (converter : Resolver) (changes : List (StateKey × WriteOp)) : Option Nat :=
  changes.findSome? fun kv =>
    match kv with
    | (StateKey.accessPath ap, op) =>
      match ap.get_path with
      | MovePath.resource typ =>
        if ap.address = coreCodeAddress ∧ typ = blockMetadataType then
          match op with
          | WriteOp.value v =>
            match converter typ v with
            | .ok resource =>
              match resource.data.lookup "height" with
              | some jv =>
                match fromValueU64 jv with
                | .ok h => some h
                | .error _ => none
              | none => none
            | .error _ => none
          | _ => none
        else none
      | _ => none
    | _ => none

/-- `Context::get_block_info`: derive block boundaries, classify the
boundary transaction, short-circuit when the timestamp is zero, and
otherwise decode the block height from the boundary transaction's
write-set through the latest-checkpoint resolver. -/
def Context.get_block_info (ctx : Context) (version ledger_version : Nat) : Outcome BlockInfo :=
  match ctx.db.get_block_boundaries version ledger_version with
  | .error e => .err ("Failed to find block boundaries " ++ e)
  | .ok (start, end_) =>
    match ctx.db.get_transaction_by_version start ledger_version false with
    | .error e => .err e
    | .ok txn_with_proof =>
      match txn_with_proof.transaction with
      | Transaction.genesisTransaction _ =>
        .ok { block_height := 0, start_version := start, end_version := end_,
              block_hash := 0, block_timestamp := 0,
              num_transactions := numTransactions start end_ }
      | Transaction.blockMetadata inner =>
        if inner.timestamp_usecs = 0 then
          .ok { block_height := 0, start_version := start, end_version := end_,
                block_hash := inner.id, block_timestamp := 0,
                num_transactions := numTransactions start end_ }
        else
          match ctx.move_resolver with
          | .error e => .err e
          | .ok converter =>
            match ctx.get_transaction_by_version start ledger_version with
            | .err e => .err e
            | .panicked => .panicked
            | .ok txn =>
              match findBlockHeight converter txn.changes with
              | some block_height =>
                .ok { block_height := block_height, start_version := start,
                      end_version := end_, block_hash := inner.id,
                      block_timestamp := inner.timestamp_usecs,
                      num_transactions := numTransactions start end_ }
              | none => .err "Unable to find block height in metadata transaction"
      | _ => .err "Failed to retrieve BlockMetadata or Genesis transaction"

/-- Spec-variant of `Context.get_block_info`, following the spec's words
for comparison: identical except that the resolver used to decode the
height resource is obtained at `ledger_version`
(spec 4.2 step 5: "obtain a state resolver at ledger_version"). -/
def Context.get_block_info_resolverAtLedgerVersion (ctx : Context)
    (version ledger_version : Nat) : Outcome BlockInfo :=
  match ctx.db.get_block_boundaries version ledger_version with
  | .error e => .err ("Failed to find block boundaries " ++ e)
  | .ok (start, end_) =>
    match ctx.db.get_transaction_by_version start ledger_version false with
    | .error e => .err e
    | .ok txn_with_proof =>
      match txn_with_proof.transaction with
      | Transaction.genesisTransaction _ =>
        .ok { block_height := 0, start_version := start, end_version := end_,
              block_hash := 0, block_timestamp := 0,
              num_transactions := numTransactions start end_ }
      | Transaction.blockMetadata inner =>
        if inner.timestamp_usecs = 0 then
          .ok { block_height := 0, start_version := start, end_version := end_,
                block_hash := inner.id, block_timestamp := 0,
                num_transactions := numTransactions start end_ }
        else
          match ctx.db.state_view_at_version (some ledger_version) with
          | .error e => .err e
          | .ok converter =>
            match ctx.get_transaction_by_version start ledger_version with
            | .err e => .err e
            | .panicked => .panicked
            | .ok txn =>
              match findBlockHeight converter txn.changes with
              | some block_height =>
                .ok { block_height := block_height, start_version := start,
                      end_version := end_, block_hash := inner.id,
                      block_timestamp := inner.timestamp_usecs,
                      num_transactions := numTransactions start end_ }
              | none => .err "Unable to find block height in metadata transaction"
      | _ => .err "Failed to retrieve BlockMetadata or Genesis transaction"

/-- The `map`/`collect` loop of `get_transactions`: for the `i`-th
transaction/output/info triple, compute `version = start + i` (`u64`
wrapping), fetch the accumulator root hash at that version, and build the
record; the first reader error aborts the whole fold. -/
def materialize (db : DbReader) (start : Nat) :
    Nat → List ((Transaction × TransactionOutput) × Nat) →
    Except String (List TransactionOnChainData)
  | _, [] => .ok []
  | i, ((txn, txn_output), info) :: rest =>
    let version := (start + i) % U64MOD
    match db.get_accumulator_root_hash version with
    | .error e => .error e
    | .ok h =>
      match materialize db start (i + 1) rest with
      | .error e => .error e
      | .ok tl =>
        .ok ({ version := version, transaction := txn, info := info,
               events := txn_output.events, accumulator_root_hash := h,
               changes := txn_output.write_set } :: tl)

/-- `Context::get_transactions`: the bounded range fetch with its two
integrity checks (`first_transaction_output_version == start_version` and
equal output/proof counts) before materializing each record. -/
def Context.get_transactions (ctx : Context) (start_version limit ledger_version : Nat) :
    Outcome (List TransactionOnChainData) :=
  match ctx.db.get_transaction_outputs start_version limit ledger_version with
  | .error e => .err e
  | .ok data =>
    match data.first_transaction_output_version with
    | none => .err "no start version from database"
    | some txn_start_version =>
      if txn_start_version = start_version then
        if data.transactions_and_outputs.length = data.proof.transaction_infos.length then
          match materialize ctx.db start_version 0
              (data.transactions_and_outputs.zip data.proof.transaction_infos) with
          | .error e => .err e
          | .ok recs => .ok recs
        else .err "invalid data size from database"
      else .err "invalid start version from database"

/-- `Context::get_latest_ledger_info`: the ledger snapshot, failing when the
oldest version is absent or when either underlying read fails. -/
def Context.get_latest_ledger_info (ctx : Context) : Outcome LedgerSnapshotInfo :=
  match ctx.db.get_first_txn_version with
  | .error e => .err e
  | .ok none => .err "Failed to retrieve oldest version"
  | .ok (some oldest_version) =>
    match ctx.db.get_latest_ledger_info with
    | .error e => .err e
    | .ok lis =>
      .ok { chain_id := ctx.chain_id, ledger_info_with_sigs := lis,
            oldest_ledger_version := oldest_version }

/-- `Context::get_events`: fetch at most `limit` events ascending from the
reader, then keep only those with `transaction_version <= ledger_version`,
returning the bare event payloads. -/
def Context.get_events (ctx : Context) (event_key start limit ledger_version : Nat) :
    Outcome (List Nat) :=
  match ctx.db.get_events event_key start Order.ascending limit with
  | .error e => .err e
  | .ok events =>
    .ok ((events.filter fun event =>
            decide (event.transaction_version ≤ ledger_version)).map EventWithVersion.event)

/-! ### Concrete collaborator instances used by counterexamples and witnesses -/

/-- A reader whose every response is a storage error. -/
def dbUnavailable : DbReader where
  get_first_txn_version := .error "unavailable"
  get_latest_ledger_info := .error "unavailable"
  get_block_boundaries := fun _ _ => .error "unavailable"
  get_transaction_by_version := fun _ _ _ => .error "unavailable"
  get_transaction_by_hash := fun _ _ _ => .error "unavailable"
  get_account_transactions := fun _ _ _ _ _ => .error "unavailable"
  get_transaction_outputs := fun _ _ _ => .error "unavailable"
  get_accumulator_root_hash := fun _ => .error "unavailable"
  get_events := fun _ _ _ _ => .error "unavailable"
  latest_state_checkpoint_view := .error "unavailable"
  state_view_at_version := fun _ => .error "unavailable"

/-- The single state write of a boundary transaction that updates the
`0x1::block::BlockMetadata` resource. -/
def bmWriteSet : List (StateKey × WriteOp) :=
  [(StateKey.accessPath { address := coreCodeAddress, path := MovePath.resource blockMetadataType },
    WriteOp.value [1])]

/-- A reader for one ordinary block at versions `[1, 1]` whose boundary
transaction is a block-metadata transaction (id 9, timestamp 5).  The
latest-checkpoint resolver decodes the height resource to 7 while the
resolver at any explicit version decodes it to 5, so the two resolver
choices are observably different. -/
def dbTwoResolvers : DbReader :=
  { dbUnavailable with
    get_block_boundaries := fun _ _ => .ok (1, 1)
    get_transaction_by_version := fun _ _ _ =>
      .ok { version := 1, transaction := Transaction.blockMetadata { id := 9, timestamp_usecs := 5 },
            info := 0 }
    get_transaction_outputs := fun _ _ _ =>
      .ok { first_transaction_output_version := some 1,
            proof := { transaction_infos := [0] },
            transactions_and_outputs :=
              [(Transaction.blockMetadata { id := 9, timestamp_usecs := 5 },
                { write_set := bmWriteSet, events := [] })] }
    get_accumulator_root_hash := fun _ => .ok 0
    latest_state_checkpoint_view := .ok (fun _ _ => .ok { data := [("height", JsonValue.u64 7)] })
    state_view_at_version := fun _ => .ok (fun _ _ => .ok { data := [("height", JsonValue.u64 5)] }) }

def ctxTwoResolvers : Context := { chain_id := 4, db := dbTwoResolvers }

/-- A reader holding one genesis block spanning versions `[0, 65535]`, a
window of `65536 = 2^16` transactions. -/
def dbGenesisWide : DbReader :=
  { dbUnavailable with
    get_block_boundaries := fun _ _ => .ok (0, 65535)
    get_transaction_by_version := fun _ _ _ =>
      .ok { version := 0, transaction := Transaction.genesisTransaction 0, info := 0 } }

def ctxGenesisWide : Context := { chain_id := 4, db := dbGenesisWide }

/-- A reader that answers a transaction-output query with an EMPTY
`transactions_and_outputs` vector while the transaction itself exists. -/
def dbEmptyOutputs : DbReader :=
  { dbUnavailable with
    get_transaction_by_version := fun _ _ _ =>
      .ok { version := 0, transaction := Transaction.userTransaction 1, info := 0 }
    get_transaction_outputs := fun _ _ _ =>
      .ok { first_transaction_output_version := some 0,
            proof := { transaction_infos := [] },
            transactions_and_outputs := [] } }

def ctxEmptyOutputs : Context := { chain_id := 4, db := dbEmptyOutputs }

/-- A reader whose transaction-output responses always carry exactly one
transaction/output pair. -/
def dbOneOutput : DbReader :=
  { dbUnavailable with
    get_transaction_by_version := fun _ _ _ =>
      .ok { version := 0, transaction := Transaction.userTransaction 1, info := 0 }
    get_transaction_outputs := fun _ _ _ =>
      .ok { first_transaction_output_version := some 0,
            proof := { transaction_infos := [0] },
            transactions_and_outputs :=
              [(Transaction.userTransaction 1, { write_set := [], events := [] })] }
    get_accumulator_root_hash := fun _ => .ok 0 }

def ctxOneOutput : Context := { chain_id := 4, db := dbOneOutput }

/-- A reader whose boundary transaction at `[0, 0]` is a plain user
transaction — malformed ledger content for a block boundary. -/
def dbUserBoundary : DbReader :=
  { dbUnavailable with
    get_block_boundaries := fun _ _ => .ok (0, 0)
    get_transaction_by_version := fun _ _ _ =>
      .ok { version := 0, transaction := Transaction.userTransaction 5, info := 0 } }

def ctxUserBoundary : Context := { chain_id := 4, db := dbUserBoundary }

/-- A reader that has never ingested a transaction: it reports no oldest
version although the latest ledger header read succeeds. -/
def dbNoOldest : DbReader :=
  { dbUnavailable with
    get_first_txn_version := .ok none
    get_latest_ledger_info := .ok 42 }

def ctxNoOldest : Context := { chain_id := 4, db := dbNoOldest }

/-- A reader for a block `[3, 4]` whose boundary block-metadata transaction
carries a ZERO timestamp and id 9. -/
def dbZeroStampMeta : DbReader :=
  { dbUnavailable with
    get_block_boundaries := fun _ _ => .ok (3, 4)
    get_transaction_by_version := fun _ _ _ =>
      .ok { version := 3, transaction := Transaction.blockMetadata { id := 9, timestamp_usecs := 0 },
            info := 0 } }

def ctxZeroStampMeta : Context := { chain_id := 4, db := dbZeroStampMeta }

/-! ### Claim theorems -/

/-- C1 counterexample: in `get_block_info` the resource bytes are decoded
through the LATEST state-checkpoint resolver, not through a resolver at the
caller-supplied `ledger_version`.  On `ctxTwoResolvers` (latest resolver
decodes height 7, version-scoped resolver decodes height 5) the code
returns height 7, while the spec-variant that obtains the resolver at
`ledger_version` returns height 5. -/
theorem blockInfo_resolver_latest_cex :
    Context.get_block_info ctxTwoResolvers 1 1 =
      Outcome.ok { block_height := 7, start_version := 1, end_version := 1,
                   block_hash := 9, block_timestamp := 5, num_transactions := 1 } ∧
    Context.get_block_info_resolverAtLedgerVersion ctxTwoResolvers 1 1 =
      Outcome.ok { block_height := 5, start_version := 1, end_version := 1,
                   block_hash := 9, block_timestamp := 5, num_transactions := 1 } ∧
    Context.get_block_info ctxTwoResolvers 1 1 ≠
      Context.get_block_info_resolverAtLedgerVersion ctxTwoResolvers 1 1 :=
  ⟨rfl, rfl, by decide⟩

/-- C1 amended: the state resolver `get_block_info` decodes against is the
latest state checkpoint view; the version-scoped state view is never
consulted, so replacing `state_view_at_version` by any function leaves the
result unchanged. -/
theorem blockInfo_independent_of_versioned_state_view
    (db : DbReader) (f : Option Nat → Except String Resolver) (cid v lv : Nat) :
    Context.get_block_info { chain_id := cid, db := { db with state_view_at_version := f } } v lv =
      Context.get_block_info { chain_id := cid, db := db } v lv := by
  cases db
  rfl

/-- C2: the `num_transactions` of `get_block_info` does NOT saturate at the
`u16` maximum: the `as u16` cast truncates.  For the genesis block spanning
`[0, 65535]` the true count `end - start + 1 = 65536` exceeds
`u16::MAX = 65535`, and the code returns `num_transactions = 0` (65536 mod
2^16), not the saturated 65535. -/
theorem blockInfo_num_transactions_truncates :
    Context.get_block_info ctxGenesisWide 0 0 =
      Outcome.ok { block_height := 0, start_version := 0, end_version := 65535,
                   block_hash := 0, block_timestamp := 0, num_transactions := 0 } ∧
    (65535 : Nat) - 0 + 1 = 65536 ∧ numTransactions 0 65535 = 0 :=
  ⟨rfl, rfl, rfl⟩

/-- C3 counterexample: the public operation `get_transaction_by_version`
panics (index out of bounds) instead of returning a `Result` when the
collaborator's `get_transaction_outputs` response carries an empty
`transactions_and_outputs` vector. -/
theorem transaction_by_version_panics_on_empty_outputs :
    Context.get_transaction_by_version ctxEmptyOutputs 0 0 =
      (Outcome.panicked : Outcome TransactionOnChainData) := rfl

/-- C3 amended: the `Context` operations return a `Result` (never panic) on
every collaborator response EXCEPT through the `[0]` index in
`convert_into_transaction_on_chain_data`, which panics when a successful
`get_transaction_outputs` response carries an empty
`transactions_and_outputs` vector — a panic that propagates to every
operation calling it: `get_transaction_by_version`,
`get_transaction_by_hash`, `get_account_transactions`, and `get_block_info`
(through its `get_transaction_by_version` call).  Whenever every successful
`get_transaction_outputs` response is nonempty, none of the operations
panics (`get_transactions`, `get_latest_ledger_info` and `get_events` never
panic at all). -/
theorem operations_no_panic_on_nonempty_outputs (ctx : Context)
    (hne : ∀ v l lv data, ctx.db.get_transaction_outputs v l lv = .ok data →
           data.transactions_and_outputs ≠ []) :
    (∀ twp, ctx.convert_into_transaction_on_chain_data twp ≠ Outcome.panicked) ∧
    (∀ v lv, Context.get_transaction_by_version ctx v lv ≠ Outcome.panicked) ∧
    (∀ h lv, Context.get_transaction_by_hash ctx h lv ≠ Outcome.panicked) ∧
    (∀ a sq l lv, Context.get_account_transactions ctx a sq l lv ≠ Outcome.panicked) ∧
    (∀ v lv, Context.get_block_info ctx v lv ≠ Outcome.panicked) ∧
    (∀ s l lv, Context.get_transactions ctx s l lv ≠ Outcome.panicked) ∧
    Context.get_latest_ledger_info ctx ≠ Outcome.panicked ∧
    (∀ k s l lv, Context.get_events ctx k s l lv ≠ Outcome.panicked) := by
  have hconv : ∀ twp, ctx.convert_into_transaction_on_chain_data twp ≠ Outcome.panicked := by
    intro twp
    unfold Context.convert_into_transaction_on_chain_data
    cases ho : ctx.db.get_transaction_outputs twp.version 1 twp.version with
    | error e => simp
    | ok data =>
      dsimp only
      cases hl : data.transactions_and_outputs with
      | nil => exact absurd hl (hne _ _ _ _ ho)
      | cons hd tl =>
        obtain ⟨t, out⟩ := hd
        cases ctx.db.get_accumulator_root_hash twp.version <;> simp
  have htv : ∀ v lv, Context.get_transaction_by_version ctx v lv ≠ Outcome.panicked := by
    intro v lv
    unfold Context.get_transaction_by_version
    cases ctx.db.get_transaction_by_version v lv true with
    | error e => simp
    | ok twp => exact hconv twp
  have hca : ∀ ts, ctx.convertAll ts ≠ Outcome.panicked := by
    intro ts
    induction ts with
    | nil => simp [Context.convertAll]
    | cons t rest ih =>
      unfold Context.convertAll
      cases hc : ctx.convert_into_transaction_on_chain_data t with
      | err e => simp
      | panicked => exact absurd hc (hconv t)
      | ok r =>
        dsimp only
        cases hr : ctx.convertAll rest with
        | err e => simp
        | panicked => exact absurd hr ih
        | ok rs => simp
  refine ⟨hconv, htv, ?_, ?_, ?_, ?_, ?_, ?_⟩
  · intro h lv
    unfold Context.get_transaction_by_hash
    cases ctx.db.get_transaction_by_hash h lv true with
    | error e => simp
    | ok o =>
      cases o with
      | none => simp
      | some t =>
        dsimp only
        cases hc : ctx.convert_into_transaction_on_chain_data t with
        | err e => simp
        | panicked => exact absurd hc (hconv t)
        | ok r => simp
  · intro a sq l lv
    unfold Context.get_account_transactions
    cases ctx.db.get_account_transactions a sq l true lv with
    | error e => simp
    | ok txns => exact hca txns
  · intro v lv
    unfold Context.get_block_info
    cases ctx.db.get_block_boundaries v lv with
    | error e => simp
    | ok p =>
      obtain ⟨s, e⟩ := p
      dsimp only
      cases ctx.db.get_transaction_by_version s lv false with
      | error e2 => simp
      | ok twp =>
        obtain ⟨tv, ttx, ti⟩ := twp
        dsimp only
        cases ttx with
        | userTransaction t => simp
        | genesisTransaction w => simp
        | stateCheckpoint hh => simp
        | blockMetadata inner =>
          dsimp only
          by_cases hz : inner.timestamp_usecs = 0
          · rw [if_pos hz]; simp
          · rw [if_neg hz]
            cases ctx.move_resolver with
            | error e3 => simp
            | ok conv =>
              dsimp only
              cases hgt : Context.get_transaction_by_version ctx s lv with
              | err e4 => simp
              | panicked => exact absurd hgt (htv s lv)
              | ok txn =>
                dsimp only
                cases findBlockHeight conv txn.changes <;> simp
  · intro s l lv
    unfold Context.get_transactions
    cases ctx.db.get_transaction_outputs s l lv with
    | error e => simp
    | ok data =>
      dsimp only
      cases hf : data.first_transaction_output_version with
      | none => simp
      | some t =>
        by_cases hts : t = s
        · by_cases hlen : data.transactions_and_outputs.length =
              data.proof.transaction_infos.length
          · simp only [hts, hlen, if_true]
            cases materialize ctx.db s 0
                (data.transactions_and_outputs.zip data.proof.transaction_infos) <;> simp
          · simp [hts, hlen]
        · simp [hts]
  · unfold Context.get_latest_ledger_info
    cases ctx.db.get_first_txn_version with
    | error e => simp
    | ok o =>
      cases o with
      | none => simp
      | some v =>
        dsimp only
        cases ctx.db.get_latest_ledger_info <;> simp
  · intro k s l lv
    unfold Context.get_events
    cases ctx.db.get_events k s Order.ascending l <;> simp

/-- C3 amended, witness: on a reader whose output responses always carry
one pair, `get_transaction_by_version` does not panic. -/
theorem operations_no_panic_on_nonempty_outputs_witness :
    Context.get_transaction_by_version ctxOneOutput 0 0 ≠ Outcome.panicked :=
  (operations_no_panic_on_nonempty_outputs ctxOneOutput
    (fun _ _ _ _ h => by cases h; decide)).2.1 0 0

/-- C4: when the boundary transaction of the block is the genesis
transaction, `get_block_info` returns height 0, timestamp 0 and the zero
hash.  The context `ctx` is arbitrary apart from the two reader responses
fixed by the hypotheses, so the result never depends on any resolver field
— the height-decoding step is skipped entirely. -/
theorem blockInfo_genesis_short_circuit (ctx : Context) (v lv s e w : Nat)
    (twp : TransactionWithProof)
    (hb : ctx.db.get_block_boundaries v lv = .ok (s, e))
    (ht : ctx.db.get_transaction_by_version s lv false = .ok twp)
    (hg : twp.transaction = Transaction.genesisTransaction w) :
    Context.get_block_info ctx v lv =
      Outcome.ok { block_height := 0, start_version := s, end_version := e,
                   block_hash := 0, block_timestamp := 0,
                   num_transactions := numTransactions s e } := by
  simp [Context.get_block_info, hb, ht, hg]

/-- C4 witness: the genesis block `[0, 65535]` of `ctxGenesisWide`. -/
theorem blockInfo_genesis_short_circuit_witness :
    Context.get_block_info ctxGenesisWide 0 0 =
      Outcome.ok { block_height := 0, start_version := 0, end_version := 65535,
                   block_hash := 0, block_timestamp := 0,
                   num_transactions := numTransactions 0 65535 } :=
  blockInfo_genesis_short_circuit ctxGenesisWide 0 0 0 65535 0
    { version := 0, transaction := Transaction.genesisTransaction 0, info := 0 } rfl rfl rfl

/-- C7: when the boundary transaction is neither a genesis nor a
block-metadata transaction, `get_block_info` returns an error and no
`BlockInfo`. -/
theorem blockInfo_malformed_boundary_err (ctx : Context) (v lv s e : Nat)
    (twp : TransactionWithProof)
    (hb : ctx.db.get_block_boundaries v lv = .ok (s, e))
    (ht : ctx.db.get_transaction_by_version s lv false = .ok twp)
    (hng : ∀ w, twp.transaction ≠ Transaction.genesisTransaction w)
    (hnm : ∀ b, twp.transaction ≠ Transaction.blockMetadata b) :
    (Context.get_block_info ctx v lv).isErr = true := by
  obtain ⟨tv, ttx, ti⟩ := twp
  unfold Context.get_block_info
  simp only [hb, ht]
  cases ttx with
  | userTransaction t => rfl
  | genesisTransaction w => exact absurd rfl (hng w)
  | blockMetadata b => exact absurd rfl (hnm b)
  | stateCheckpoint h => rfl

/-- C7 witness: a user transaction sitting at a block boundary. -/
theorem blockInfo_malformed_boundary_err_witness :
    (Context.get_block_info ctxUserBoundary 0 0).isErr = true :=
  blockInfo_malformed_boundary_err ctxUserBoundary 0 0 0 0
    { version := 0, transaction := Transaction.userTransaction 5, info := 0 } rfl rfl
    (fun _ h => by cases h) (fun _ h => by cases h)

/-- C8: `get_latest_ledger_info` returns an error whenever the reader
reports no oldest transaction version, and whenever either underlying read
(the oldest-version read or the latest-ledger-header read) fails. -/
theorem latest_ledger_info_err_conditions (ctx : Context)
    (h : (∃ e, ctx.db.get_first_txn_version = .error e) ∨
         ctx.db.get_first_txn_version = .ok none ∨
         (∃ v e, ctx.db.get_first_txn_version = .ok (some v) ∧
                 ctx.db.get_latest_ledger_info = .error e)) :
    (Context.get_latest_ledger_info ctx).isErr = true := by
  unfold Context.get_latest_ledger_info
  rcases h with ⟨e, he⟩ | he | ⟨v, e, hv, he⟩
  · rw [he]; rfl
  · rw [he]; rfl
  · rw [hv, he]; rfl

/-- C8 witness: a store that has never ingested a transaction. -/
theorem latest_ledger_info_err_conditions_witness :
    (Context.get_latest_ledger_info ctxNoOldest).isErr = true :=
  latest_ledger_info_err_conditions ctxNoOldest (Or.inr (Or.inl rfl))

/-- C9: a block-metadata boundary transaction with `timestamp_usecs() = 0`
takes the genesis short-circuit of `get_block_info`: height 0 and
timestamp 0 without any height decoding (the context is arbitrary beyond
the two fixed responses), but with the metadata transaction's own id as the
block hash. -/
theorem blockInfo_zero_timestamp_metadata (ctx : Context) (v lv s e : Nat)
    (inner : BlockMetadataTxn) (twp : TransactionWithProof)
    (hb : ctx.db.get_block_boundaries v lv = .ok (s, e))
    (ht : ctx.db.get_transaction_by_version s lv false = .ok twp)
    (hm : twp.transaction = Transaction.blockMetadata inner)
    (hz : inner.timestamp_usecs = 0) :
    Context.get_block_info ctx v lv =
      Outcome.ok { block_height := 0, start_version := s, end_version := e,
                   block_hash := inner.id, block_timestamp := 0,
                   num_transactions := numTransactions s e } := by
  simp [Context.get_block_info, hb, ht, hm, hz]

/-- C9 witness: the zero-timestamp metadata boundary of `ctxZeroStampMeta`
yields hash 9 (the transaction's id), not the zero hash. -/
theorem blockInfo_zero_timestamp_metadata_witness :
    Context.get_block_info ctxZeroStampMeta 0 0 =
      Outcome.ok { block_height := 0, start_version := 3, end_version := 4,
                   block_hash := 9, block_timestamp := 0,
                   num_transactions := numTransactions 3 4 } :=
  blockInfo_zero_timestamp_metadata ctxZeroStampMeta 0 0 3 4
    { id := 9, timestamp_usecs := 0 }
    { version := 3, transaction := Transaction.blockMetadata { id := 9, timestamp_usecs := 0 },
      info := 0 } rfl rfl rfl rfl

/-- A reader that reports `first_transaction_output_version = 3` whatever
window is requested (the spec's inconsistent-window scenario). -/
def dbMismatchStart : DbReader :=
  { dbUnavailable with
    get_transaction_outputs := fun _ _ _ =>
      .ok { first_transaction_output_version := some 3,
            proof := { transaction_infos := [] },
            transactions_and_outputs := [] } }

def ctxMismatchStart : Context := { chain_id := 4, db := dbMismatchStart }

/-- A reader reporting a two-transaction window starting at `u64::MAX`,
with the accumulator root hash at any version equal to that version. -/
def dbWrap : DbReader :=
  { dbUnavailable with
    get_transaction_outputs := fun _ _ _ =>
      .ok { first_transaction_output_version := some U64MAX,
            proof := { transaction_infos := [0, 0] },
            transactions_and_outputs :=
              [(Transaction.userTransaction 0, { write_set := [], events := [] }),
               (Transaction.userTransaction 0, { write_set := [], events := [] })] }
    get_accumulator_root_hash := fun v => .ok v }

def ctxWrap : Context := { chain_id := 4, db := dbWrap }

/-- The single record `get_transactions` materializes from `dbOneOutput`
for the request `(0, 1, 0)`. -/
def recOne : TransactionOnChainData :=
  { version := 0, transaction := Transaction.userTransaction 1, info := 0, events := [],
    accumulator_root_hash := 0, changes := [] }

/-- A reader whose event store holds two events for every key: one at
transaction version 100 (payload 7) followed by one at transaction
version 1 (payload 8); `get_events` answers with the window
`take limit (drop start …)` of that store. -/
def dbEventsWindow : DbReader :=
  { dbUnavailable with
    get_events := fun _ s _ l =>
      .ok (List.take l (List.drop s
        [{ transaction_version := 100, event := 7 }, { transaction_version := 1, event := 8 }])) }

def ctxEventsWindow : Context := { chain_id := 4, db := dbEventsWindow }

/-- C5: `get_transactions` returns an error — never a partial result —
whenever the store's reported `first_transaction_output_version` differs
from the requested `start_version` (or is absent), and whenever the number
of transaction/output pairs differs from the number of proofs. -/
theorem get_transactions_integrity_checks (ctx : Context) (s l lv : Nat)
    (data : TransactionOutputListWithProof)
    (ho : ctx.db.get_transaction_outputs s l lv = .ok data)
    (hbad : data.first_transaction_output_version ≠ some s ∨
            data.transactions_and_outputs.length ≠ data.proof.transaction_infos.length) :
    (Context.get_transactions ctx s l lv).isErr = true := by
  unfold Context.get_transactions
  rw [ho]
  dsimp only
  cases hf : data.first_transaction_output_version with
  | none => rfl
  | some t =>
    dsimp only
    rcases hbad with hbad | hbad
    · have hts : ¬ (t = s) := fun he => hbad (by rw [hf, he])
      rw [if_neg hts]; rfl
    · by_cases hts : t = s
      · rw [if_pos hts, if_neg hbad]; rfl
      · rw [if_neg hts]; rfl

/-- C5 witness: the spec scenario — reader reports
`first_transaction_output_version = 3`, caller requested `start_version = 2`. -/
theorem get_transactions_integrity_checks_witness :
    (Context.get_transactions ctxMismatchStart 2 1 9).isErr = true :=
  get_transactions_integrity_checks ctxMismatchStart 2 1 9
    { first_transaction_output_version := some 3,
      proof := { transaction_infos := [] },
      transactions_and_outputs := [] } rfl (Or.inl (by decide))

/-- Each record produced by `materialize db s i` carries the wrapped
version `(s + i + j) % 2^64` at position `j`, together with the
accumulator root hash the reader returned at exactly that version. -/
theorem materialize_ok_get (db : DbReader) (s : Nat)
    (pairs : List ((Transaction × TransactionOutput) × Nat)) :
    ∀ (i : Nat) (res : List TransactionOnChainData),
      materialize db s i pairs = .ok res →
      res.length = pairs.length ∧
      ∀ j (hj : j < res.length),
        (res.get ⟨j, hj⟩).version = (s + i + j) % U64MOD ∧
        db.get_accumulator_root_hash ((s + i + j) % U64MOD) =
          .ok (res.get ⟨j, hj⟩).accumulator_root_hash := by
  induction pairs with
  | nil =>
    intro i res h
    simp only [materialize] at h
    injection h with h
    subst h
    exact ⟨rfl, fun j hj => absurd hj (by simp)⟩
  | cons hd rest ih =>
    intro i res h
    obtain ⟨⟨txn, out⟩, info⟩ := hd
    simp only [materialize] at h
    revert h
    cases hacc : db.get_accumulator_root_hash ((s + i) % U64MOD) with
    | error e => intro h; exact Except.noConfusion h
    | ok hsh =>
      cases hm : materialize db s (i + 1) rest with
      | error e => intro h; exact Except.noConfusion h
      | ok tl =>
        intro h
        injection h with h
        subst h
        obtain ⟨hlen, hget⟩ := ih (i + 1) tl hm
        refine ⟨by simpa using hlen, ?_⟩
        intro j hj
        cases j with
        | zero =>
          constructor
          · simp
          · simpa using hacc
        | succ j =>
          have hj' : j < tl.length := by simpa using hj
          have harith : s + (i + 1) + j = s + i + (j + 1) := by omega
          have h1 := hget j hj'
          rw [harith] at h1
          exact h1

/-- C6 counterexample: the record versions of `get_transactions` are the
`u64`-wrapped `start_version + i`, not the mathematical sum.  Requesting a
two-record window at `start_version = u64::MAX` succeeds, and the second
record carries version 0 (and the accumulator root hash queried at 0), not
`u64::MAX + 1`, so the versions are not strictly increasing. -/
theorem get_transactions_version_wrap_cex :
    Context.get_transactions ctxWrap U64MAX 2 10 =
      Outcome.ok
        [{ version := U64MAX, transaction := Transaction.userTransaction 0, info := 0,
           events := [], accumulator_root_hash := U64MAX, changes := [] },
         { version := 0, transaction := Transaction.userTransaction 0, info := 0,
           events := [], accumulator_root_hash := 0, changes := [] }] ∧
    (0 : Nat) ≠ U64MAX + 1 :=
  ⟨rfl, by decide⟩

/-- C6 amended: when `get_transactions` succeeds, the `j`-th returned
record has version `(start_version + j) % 2^64` and carries the accumulator
root hash the reader returned at exactly that version; whenever
`start_version + count` does not exceed `2^64` (every real ledger window)
the version is exactly `start_version + j`, hence strictly increasing from
`start_version`. -/
theorem get_transactions_versions_and_hashes (ctx : Context) (s l lv : Nat)
    (res : List TransactionOnChainData)
    (h : Context.get_transactions ctx s l lv = .ok res) :
    ∀ j (hj : j < res.length),
      (res.get ⟨j, hj⟩).version = (s + j) % U64MOD ∧
      ctx.db.get_accumulator_root_hash ((s + j) % U64MOD) =
        .ok (res.get ⟨j, hj⟩).accumulator_root_hash ∧
      (s + res.length ≤ U64MOD → (res.get ⟨j, hj⟩).version = s + j) := by
  unfold Context.get_transactions at h
  revert h
  cases ho : ctx.db.get_transaction_outputs s l lv with
  | error e => intro h; exact Outcome.noConfusion h
  | ok data =>
    dsimp only
    cases hf : data.first_transaction_output_version with
    | none => intro h; exact Outcome.noConfusion h
    | some t =>
      dsimp only
      by_cases hts : t = s
      · rw [if_pos hts]
        by_cases hlen : data.transactions_and_outputs.length =
            data.proof.transaction_infos.length
        · rw [if_pos hlen]
          cases hm : materialize ctx.db s 0
              (data.transactions_and_outputs.zip data.proof.transaction_infos) with
          | error e => intro h; exact Outcome.noConfusion h
          | ok recs =>
            intro h
            injection h with h
            subst h
            obtain ⟨hlen2, hget⟩ := materialize_ok_get ctx.db s _ 0 recs hm
            intro j hj
            have h1 := hget j hj
            have hv : (recs.get ⟨j, hj⟩).version = (s + j) % U64MOD := by
              simpa using h1.1
            refine ⟨hv, by simpa using h1.2, ?_⟩
            intro hle
            have hlt : s + j < U64MOD :=
              lt_of_lt_of_le (Nat.add_lt_add_left hj s) hle
            rw [hv, Nat.mod_eq_of_lt hlt]
        · rw [if_neg hlen]; intro h; exact Outcome.noConfusion h
      · rw [if_neg hts]; intro h; exact Outcome.noConfusion h

/-- C6 amended, witness: the single-record window of `ctxOneOutput`. -/
theorem get_transactions_versions_and_hashes_witness :
    (([recOne].get ⟨0, Nat.one_pos⟩).version = (0 + 0) % U64MOD) ∧
    ctxOneOutput.db.get_accumulator_root_hash ((0 + 0) % U64MOD) =
      .ok (([recOne].get ⟨0, Nat.one_pos⟩).accumulator_root_hash) ∧
    (0 + ([recOne] : List TransactionOnChainData).length ≤ U64MOD →
      ([recOne].get ⟨0, Nat.one_pos⟩).version = 0 + 0) :=
  get_transactions_versions_and_hashes ctxOneOutput 0 1 0 [recOne] rfl 0 Nat.one_pos

/-- C10: every event `get_events` returns comes from the reader's list
filtered to transaction versions at most `ledger_version` (so each returned
event's version is bounded by `ledger_version`), in the reader's order (the
result is a sublist of the reader's event payloads); and since the filter
runs only after fetching at most `limit` events, the call can return fewer
than `limit` events while a qualifying event beyond the fetched window
exists: on `ctxEventsWindow`, `limit = 1` yields no events although the
event at version 1 (payload 8) qualifies and is served once the window is
widened to `limit = 2`. -/
theorem get_events_filter_props :
    (∀ (ctx : Context) (k s l lv : Nat) (evs : List EventWithVersion) (res : List Nat),
       ctx.db.get_events k s Order.ascending l = .ok evs →
       Context.get_events ctx k s l lv = .ok res →
       res = (evs.filter fun e => decide (e.transaction_version ≤ lv)).map
           EventWithVersion.event ∧
       List.Sublist res (evs.map EventWithVersion.event)) ∧
    (Context.get_events ctxEventsWindow 0 0 1 50 = .ok [] ∧
     (0 : Nat) < 1 ∧
     Context.get_events ctxEventsWindow 0 0 2 50 = .ok [8]) := by
  constructor
  · intro ctx k s l lv evs res hdb h
    unfold Context.get_events at h
    rw [hdb] at h
    dsimp only at h
    injection h with h
    subst h
    exact ⟨rfl, List.Sublist.map _ (List.filter_sublist _)⟩
  · exact ⟨rfl, by decide, rfl⟩

/-- C10 witness: the `limit = 1` window of `ctxEventsWindow` at
`ledger_version = 50`. -/
theorem get_events_filter_props_witness :
    (([] : List Nat) =
      (([{ transaction_version := 100, event := 7 }] : List EventWithVersion).filter
          fun e => decide (e.transaction_version ≤ 50)).map EventWithVersion.event) ∧
    List.Sublist ([] : List Nat)
      (([{ transaction_version := 100, event := 7 }] : List EventWithVersion).map
        EventWithVersion.event) :=
  get_events_filter_props.1 ctxEventsWindow 0 0 1 50
    [{ transaction_version := 100, event := 7 }] [] rfl rfl

end ApiContext
